import Mathlib

/-!
Formal model of the interactive Fibonacci program in
src/fibonacci/src/main.rs: an input-validation loop over a stream of text
lines (lines 4-23) followed by an iterative Fibonacci computation on 32-bit
unsigned accumulators (lines 25-43).  Standard input is modelled as the list
of lines available; standard output as the list of lines printed.
-/

/-- Modulus of 32-bit unsigned arithmetic: the accumulators a1, a2, temp of
the computation stage are u32, additions wrap mod 2^32. -/
def U32 : Nat := 4294967296

/-- Largest i32 value; str::parse::<i32> rejects numerals whose value
exceeds it. -/
def I32_MAX : Int := 2147483647

/-- Smallest i32 value. -/
def I32_MIN : Int := -2147483648

/-- Whitespace stripping of str::trim on line 10 (n.trim()), acting on the
line's character list: leading and trailing whitespace removed. -/
def trimChars (cs : List Char) : List Char :=
  ((cs.dropWhile Char.isWhitespace).reverse.dropWhile Char.isWhitespace).reverse

/-- Numeric value of a list of decimal digits, most significant first. -/
def digitsVal (cs : List Char) : Nat :=
  cs.foldl (fun a c => 10 * a + (c.toNat - 48)) 0

/-- Digit-run requirement inside str::parse::<i32>: after the optional sign
there must be at least one character and every character must be an ASCII
decimal digit. -/
def readDigits (cs : List Char) : Option Nat :=
  if cs = [] then none
  else if cs.all Char.isDigit then some (digitsVal cs) else none

/-- Optional single leading sign accepted by str::parse::<i32>. -/
def parseSign : List Char → Bool × List Char
  | [] => (false, [])
  | c :: rest =>
    if c = '-' then (true, rest)
    else if c = '+' then (false, rest)
    else (false, c :: rest)

/-- str::parse::<i32> on line 10: optional sign, then a nonempty run of
ASCII digits, with checked arithmetic.  The digit-by-digit checked steps
succeed exactly when the final signed value lies in the i32 range, so the
model parses the digit run in full and then checks the range. -/
def parseI32 (cs : List Char) : Option Int :=
  match readDigits (parseSign cs).2 with
  | none => none
  | some m =>
    let v : Int := if (parseSign cs).1 then -(m : Int) else (m : Int)
    if I32_MIN ≤ v ∧ v ≤ I32_MAX then some v else none

/-- Stdin::read_line on line 8, against the remaining stream of input lines.
At end of stream, read_line returns Ok with 0 bytes read and leaves the
freshly created buffer empty, so the model yields the empty line and an
unchanged (empty) stream; the Err path of read_line (a genuine I/O error,
the only way the expect-panic on line 8 can fire) does not arise from an
exhausted stdin and is outside the model. -/
def readLine : List String → String × List String
  | [] => ("", [])
  | s :: rest => (s, rest)

/-- Outcome of one pass through the validation loop body (lines 4-23):
break with a value, re-enter the loop with the remaining input, or panic
via expect (never produced here, see readLine). -/
inductive IterResult where
  | exit (n : Int) (out : List String)
  | again (rest : List String) (out : List String)
  | abort (msg : String) (out : List String)
deriving DecidableEq

/-- One pass through the validation loop body, lines 4-23: print the
prompt, read a line, trim and parse it; on parse failure print a
diagnostic and continue; on a negative value print a diagnostic and
re-enter the loop; otherwise break with the value. -/
def loopIter (input : List String) : IterResult :=
  match parseI32 (trimChars (readLine input).1.toList) with
  | none => .again (readLine input).2 ["Enter n:", "Enter a valid number"]
  | some v =>
    if v < 0 then .again (readLine input).2 ["Enter n:", "Enter a non-negative integer"]
    else .exit v ["Enter n:"]

/-- The whole validation loop: iterate loopIter until it breaks, collecting
the printed lines and the value carried out of the loop (none when the loop
never breaks).  On the empty stream loopIter re-enters the loop with the
same empty stream (see the EOF theorem below), so the real program repeats
that pass forever; the model records the output of one such pass and no
value. -/
def runValidation : List String → List String × Option Int
  | [] =>
    match loopIter [] with
    | .exit v out => (out, some v)
    | .again _ out => (out, none)
    | .abort _ out => (out, none)
  | line :: rest =>
    match loopIter (line :: rest) with
    | .exit v out => (out, some v)
    | .again _ out => (out ++ (runValidation rest).1, (runValidation rest).2)
    | .abort _ out => (out, none)

/-- Mathematical Fibonacci numbers with F(0) = 0, F(1) = 1. -/
def fib : Nat → Nat
  | 0 => 0
  | 1 => 1
  | n + 2 => fib n + fib (n + 1)

/-- One pass through the while-loop body, lines 36-39: temp = a2;
a2 = a1 + a2 (u32, wrapping mod 2^32); a1 = temp. -/
def fibStep (p : Nat × Nat) : Nat × Nat :=
  (p.2, (p.1 + p.2) % U32)

/-- The while loop of lines 35-40: run the body while count > 0,
decrementing count each pass.  Returns the final accumulator pair and the
number of times the body executed. -/
def fibWhile (a1 a2 : Nat) (count : Int) (steps : Nat) : (Nat × Nat) × Nat :=
  if h : 0 < count then fibWhile a2 ((a1 + a2) % U32) (count - 1) (steps + 1)
  else ((a1, a2), steps)
termination_by count.toNat
decreasing_by simp_wf; omega

/-- The computation stage, lines 25-43, on the validated value fibo_n:
special cases for 0 and 1 print their line without reaching the while loop;
otherwise the loop runs from a1 = 0, a2 = 1 with count = fibo_n - 2 and the
final a2 is printed.  Returns the printed result line and the number of
times the while-loop body executed. -/
def computeStage (n : Int) : String × Nat :=
  if n = 0 then (toString n ++ "th fibonacci number is 0", 0)
  else if n = 1 then (toString n ++ "th fibonacci number is 1", 0)
  else
    ("The " ++ toString n ++ "th fibonacci number is: " ++
       toString (fibWhile 0 1 (n - 2) 0).1.2,
     (fibWhile 0 1 (n - 2) 0).2)

/-- The whole program (fn main): validation loop, then the computation
stage on the value it carried out.  Returns the printed lines and whether
the program terminated (false when the validation loop never breaks). -/
def runProgram (input : List String) : List String × Bool :=
  match runValidation input with
  | (out, none) => (out, false)
  | (out, some v) => (out ++ [(computeStage v).1], true)

theorem fib_add_two (n : Nat) : fib (n + 2) = fib n + fib (n + 1) := rfl

theorem fibStep_iterate (k : Nat) :
    fibStep^[k] (0, 1) = (fib k % U32, fib (k + 1) % U32) := by
  induction k with
  | zero => simp [fib, U32]
  | succ k ih =>
    rw [Function.iterate_succ_apply', ih]
    simp only [fibStep, fib_add_two, Nat.add_mod (fib k) (fib (k + 1))]

theorem fibWhile_spec : ∀ (k : Nat) (c : Int), c.toNat = k → ∀ (a1 a2 s : Nat),
    fibWhile a1 a2 c s = (fibStep^[k] (a1, a2), s + k) := by
  intro k
  induction k with
  | zero =>
    intro c hc a1 a2 s
    have hnp : ¬ 0 < c := by omega
    rw [fibWhile, dif_neg hnp]
    simp
  | succ k ih =>
    intro c hc a1 a2 s
    have hp : 0 < c := by omega
    rw [fibWhile, dif_pos hp, ih (c - 1) (by omega)]
    rw [Function.iterate_succ_apply]
    have hstep : fibStep (a1, a2) = (a2, (a1 + a2) % U32) := rfl
    rw [hstep]
    simp only [Prod.mk.injEq, true_and]
    omega

theorem digit_not_sign (c : Char) (h : c.isDigit = true) : c ≠ '-' ∧ c ≠ '+' := by
  constructor <;> intro he <;> rw [he] at h <;> exact absurd h (by decide)

theorem parseSign_no_sign (c : Char) (cs : List Char) (h1 : c ≠ '-') (h2 : c ≠ '+') :
    parseSign (c :: cs) = (false, c :: cs) := by
  simp [parseSign, h1, h2]

theorem readDigits_digits (cs : List Char) (hne : cs ≠ [])
    (hd : cs.all Char.isDigit = true) :
    readDigits cs = some (digitsVal cs) := by
  simp [readDigits, hne, hd]

theorem parseI32_digits (cs : List Char) (hne : cs ≠ [])
    (hd : cs.all Char.isDigit = true) :
    parseI32 cs =
      if (digitsVal cs : Int) ≤ I32_MAX then some (digitsVal cs) else none := by
  obtain ⟨c, cs', rfl⟩ : ∃ c cs', cs = c :: cs' := by
    cases cs with
    | nil => exact absurd rfl hne
    | cons c cs' => exact ⟨c, cs', rfl⟩
  have hc : c.isDigit = true := by
    rw [List.all_cons, Bool.and_eq_true] at hd
    exact hd.1
  obtain ⟨h1, h2⟩ := digit_not_sign c hc
  unfold parseI32
  rw [parseSign_no_sign c cs' h1 h2, readDigits_digits _ hne hd]
  have hmin : I32_MIN ≤ (digitsVal (c :: cs') : Int) :=
    le_trans (by norm_num [I32_MIN]) (Int.natCast_nonneg _)
  by_cases hb : (digitsVal (c :: cs') : Int) ≤ I32_MAX
  · simp [hmin, hb]
  · simp [hb]

theorem loopIter_exit_nonneg (input : List String) (v : Int) (out : List String)
    (h : loopIter input = .exit v out) : 0 ≤ v := by
  unfold loopIter at h
  split at h
  · exact absurd h (by simp)
  · split at h
    · exact absurd h (by simp)
    · rename_i w hp hw
      have : w = v := by injection h
      omega

example : parseI32 (trimChars "-3".toList) = some (-3) := by decide
example : parseI32 (trimChars " 7 ".toList) = some 7 := by decide
example : parseI32 (trimChars "3.5".toList) = none := by decide
example : parseI32 (trimChars "".toList) = none := by decide
example : parseI32 (trimChars "2147483648".toList) = none := by decide
example : parseI32 (trimChars "2147483647".toList) = some 2147483647 := by decide
example : parseI32 (trimChars "-2147483648".toList) = some (-2147483648) := by decide
example : loopIter [] = .again [] ["Enter n:", "Enter a valid number"] := by decide
example : runProgram ["-3", "0"] =
    (["Enter n:", "Enter a non-negative integer", "Enter n:",
      "0th fibonacci number is 0"], true) := by decide
example : computeStage 0 = ("0th fibonacci number is 0", 0) := by decide

/-- C1: the claim says the computation returns the mathematically correct
F(n) for every n ≤ 46, with the loop iterating (n-2) steps from (0, 1) and
finishing with b = F(n).  The code is wrong: its loop runs fibo_n - 2
passes starting from (F(0), F(1)), so the printed a2 is F(n-1); at the
validated input n = 3 the computation stage prints the line
"The 3th fibonacci number is: 1" after one loop pass, while F(3) = 2 —
contradicting the program's own output text. -/
theorem C1_value_wrong_at_three :
    computeStage 3 = ("The 3th fibonacci number is: 1", 1) ∧ fib 3 = 2 := by
  refine ⟨?_, rfl⟩
  unfold computeStage
  rw [if_neg (by decide), if_neg (by decide),
    fibWhile_spec 1 ((3 : Int) - 2) (by decide)]
  decide

/-- C2: the claim says reaching end-of-stream aborts the program.  The
code instead loops forever: at end-of-stream read_line returns Ok with an
empty buffer, the empty line fails to parse, and the pass re-enters the
loop with the same (empty) stream — a self-loop that never aborts, never
exits, and prints no result line. -/
theorem C2_eof_self_loop_no_abort :
    loopIter [] = .again [] ["Enter n:", "Enter a valid number"] ∧
    runProgram [] = (["Enter n:", "Enter a valid number"], false) := by
  decide

/-- C3 counterexample: on the input stream ["-3", "0"] the result line the
program prints is "0th fibonacci number is 0" (the n = 0 branch omits the
leading "The "), not "The 0th fibonacci number is 0" as the claim states. -/
theorem C3_result_line_counterexample :
    (runProgram ["-3", "0"]).1 =
      ["Enter n:", "Enter a non-negative integer", "Enter n:",
       "0th fibonacci number is 0"] ∧
    ("0th fibonacci number is 0" : String) ≠ "The 0th fibonacci number is 0" := by
  decide

/-- C3 amended: for the input stream ["-3", "0"] the program emits the
negative-value diagnostic for the first line and then prints exactly the
result line "0th fibonacci number is 0", terminating normally. -/
theorem C3_diagnostic_then_result :
    runProgram ["-3", "0"] =
      (["Enter n:", "Enter a non-negative integer", "Enter n:",
        "0th fibonacci number is 0"], true) := by
  decide

/-- C4 counterexample: the line "2147483648" is a numeral for a
non-negative integer (every character an ASCII digit), yet the validation
pass does not accept it: i32 parsing rejects it as out of range and the
loop prints the invalid-number diagnostic and retries. -/
theorem C4_large_numeral_rejected :
    ("2147483648".toList.all Char.isDigit = true) ∧
    loopIter ["2147483648"] = .again [] ["Enter n:", "Enter a valid number"] := by
  decide

/-- C4 amended: a line whose trimmed text is a nonempty run of decimal
digits is accepted, exiting the loop with its value, exactly when that
value is at most 2147483647 (i32 upper bound); larger numerals fail the
parse and the loop emits the invalid-number diagnostic and retries. -/
theorem C4_numeral_bound (line : String) (rest : List String) (cs : List Char)
    (htrim : trimChars line.toList = cs) (hne : cs ≠ [])
    (hd : cs.all Char.isDigit = true) :
    loopIter (line :: rest) =
      if (digitsVal cs : Int) ≤ I32_MAX then .exit (digitsVal cs) ["Enter n:"]
      else .again rest ["Enter n:", "Enter a valid number"] := by
  unfold loopIter
  have hr1 : (readLine (line :: rest)).1 = line := rfl
  have hr2 : (readLine (line :: rest)).2 = rest := rfl
  rw [hr1, hr2, htrim, parseI32_digits cs hne hd]
  have hnn : ¬ ((digitsVal cs : Int) < 0) := by
    have := Int.natCast_nonneg (digitsVal cs)
    omega
  split_ifs with hb
  · simp [hnn]
  · rfl

/-- C4 witness: the digit line "7" satisfies the hypotheses and is
accepted with value 7. -/
theorem C4_numeral_bound_witness :
    trimChars "7".toList = ['7'] ∧
    loopIter ["7"] =
      (if (digitsVal ['7'] : Int) ≤ I32_MAX then .exit (digitsVal ['7']) ["Enter n:"]
       else .again [] ["Enter n:", "Enter a valid number"]) :=
  ⟨by decide, C4_numeral_bound "7" [] ['7'] (by decide) (by decide) (by decide)⟩

/-- C5: F(0) and F(1) are returned exactly by the two special-case
branches, each printing its line with zero executions of the while-loop
body. -/
theorem C5_boundary_cases :
    computeStage 0 = ("0th fibonacci number is 0", 0) ∧
    computeStage 1 = ("1th fibonacci number is 1", 0) ∧
    fib 0 = 0 ∧ fib 1 = 1 := by
  decide

/-- C6: any line whose trimmed text fails i32 parsing makes the pass print
the prompt and the diagnostic "Enter a valid number" and re-enter the loop
on the remaining input, without exiting. -/
theorem C6_parse_failure_retries (line : String) (rest : List String)
    (h : parseI32 (trimChars line.toList) = none) :
    loopIter (line :: rest) = .again rest ["Enter n:", "Enter a valid number"] := by
  unfold loopIter
  have hr1 : (readLine (line :: rest)).1 = line := rfl
  have hr2 : (readLine (line :: rest)).2 = rest := rfl
  rw [hr1, hr2, h]

/-- C6 witness: the line "abc" fails to parse and the loop retries. -/
theorem C6_parse_failure_witness :
    parseI32 (trimChars "abc".toList) = none ∧
    loopIter ["abc"] = .again [] ["Enter n:", "Enter a valid number"] :=
  ⟨by decide, C6_parse_failure_retries "abc" [] (by decide)⟩

/-- C7: any line parsing to a negative value makes the pass print the
prompt and the diagnostic "Enter a non-negative integer" and re-enter the
loop on the remaining input, without exiting. -/
theorem C7_negative_retries (line : String) (rest : List String) (v : Int)
    (hp : parseI32 (trimChars line.toList) = some v) (hv : v < 0) :
    loopIter (line :: rest) = .again rest ["Enter n:", "Enter a non-negative integer"] := by
  unfold loopIter
  have hr1 : (readLine (line :: rest)).1 = line := rfl
  have hr2 : (readLine (line :: rest)).2 = rest := rfl
  rw [hr1, hr2, hp]
  exact if_pos hv

/-- C7 witness: the line "-5" parses to -5 < 0 and the loop retries. -/
theorem C7_negative_witness :
    parseI32 (trimChars "-5".toList) = some (-5) ∧
    loopIter ["-5"] = .again [] ["Enter n:", "Enter a non-negative integer"] :=
  ⟨by decide, C7_negative_retries "-5" [] (-5) (by decide) (by decide)⟩

/-- C8: whenever the validation loop exits carrying a value into the
computation stage, that value is a parsed, non-negative integer: for every
input stream, runValidation can only produce some v with v ≥ 0. -/
theorem C8_validated_nonneg (input : List String) (out : List String) (v : Int)
    (h : runValidation input = (out, some v)) : 0 ≤ v := by
  induction input generalizing out with
  | nil =>
    have hv : runValidation [] = (["Enter n:", "Enter a valid number"], none) := rfl
    rw [hv] at h
    have := congrArg Prod.snd h
    simp at this
  | cons line rest ih =>
    unfold runValidation at h
    split at h
    · rename_i w o hl
      have hw := loopIter_exit_nonneg (line :: rest) w o hl
      have h2 : some w = some v := congrArg Prod.snd h
      have : w = v := by injection h2
      omega
    · have h2 : (runValidation rest).2 = some v := by
        have := congrArg Prod.snd h
        simpa using this
      refine ih (runValidation rest).1 ?_
      rw [Prod.ext_iff]
      exact ⟨rfl, h2⟩
    · have h2 : (none : Option Int) = some v := congrArg Prod.snd h
      simp at h2

/-- C8 witness: on the stream ["0"] the loop exits with 0, and 0 ≥ 0. -/
theorem C8_validated_nonneg_witness :
    runValidation ["0"] = (["Enter n:"], some 0) ∧ (0 : Int) ≤ 0 :=
  ⟨by decide, C8_validated_nonneg ["0"] ["Enter n:"] 0 (by decide)⟩

/-- C9: for every validated n, the while loop terminates and its body
executes exactly (n - 2) times when n ≥ 2 and zero times when n is 0 or 1
(the special-case branches never reach the loop). -/
theorem C9_loop_count (n : Int) (h : 0 ≤ n) :
    (computeStage n).2 = if n < 2 then 0 else (n - 2).toNat := by
  unfold computeStage
  by_cases h0 : n = 0
  · rw [if_pos h0, if_pos (by omega)]
  · by_cases h1 : n = 1
    · rw [if_neg h0, if_pos h1, if_pos (by omega)]
    · rw [if_neg h0, if_neg h1, if_neg (show ¬ n < 2 by omega),
        fibWhile_spec (n - 2).toNat (n - 2) rfl]
      simp

/-- C9 witness: at n = 5 the loop body executes three times. -/
theorem C9_loop_count_witness :
    (0 : Int) ≤ 5 ∧
    (computeStage 5).2 = if (5 : Int) < 2 then 0 else ((5 : Int) - 2).toNat :=
  ⟨by decide, C9_loop_count 5 (by decide)⟩

/-- C10: loop invariant of the iterative computation — for n ≥ 2, after k
completed passes of the while body (k ≤ n - 2) the accumulators are
(F(k) mod 2^32, F(k+1) mod 2^32); and the full loop is exactly (n-2).toNat
passes of the body. -/
theorem C10_loop_invariant (n : Int) (k : Nat) (_hn : 2 ≤ n)
    (_hk : (k : Int) ≤ n - 2) :
    fibStep^[k] (0, 1) = (fib k % U32, fib (k + 1) % U32) ∧
    (fibWhile 0 1 (n - 2) 0).1 = fibStep^[(n - 2).toNat] (0, 1) := by
  refine ⟨fibStep_iterate k, ?_⟩
  rw [fibWhile_spec (n - 2).toNat (n - 2) rfl]

/-- C10 witness: at n = 4, k = 2 the invariant holds concretely. -/
theorem C10_loop_invariant_witness :
    (2 : Int) ≤ 4 ∧ ((2 : Nat) : Int) ≤ 4 - 2 ∧
    (fibStep^[2] (0, 1) = (fib 2 % U32, fib (2 + 1) % U32) ∧
     (fibWhile 0 1 ((4 : Int) - 2) 0).1 = fibStep^[((4 : Int) - 2).toNat] (0, 1)) :=
  ⟨by decide, by decide, C10_loop_invariant 4 2 (by decide) (by decide)⟩
